import Mathlib

/-!
# DHTC driver (`dht-example.c`): embedding and checked properties

The C file drives a DHT engine: `callback` prints engine events,
`run_resolver` is one iteration of the event loop, `main` generates the node
identity, collects the bootstrap addresses and runs the loop, and `dht_hash`
is the hash the engine calls back into.

Conventions of the embedding.

* A byte is a `Fin 256`.  Plain `char` is signed and `int` is 32 bits wide
  (the x86-64 Linux ABI the program is built for); conversions to `int` wrap
  through `toInt32`.  The host is little-endian.
* Everything outside the file (the kernel, libc, the engine in `dht.c`) is an
  oracle: one `Env` record holds the answers those calls give during one call
  of `run_resolver`, and the calls made are logged as a list of `Action`s.
* The `errno` numbers are the Linux ones.  The event codes of `dht.h` are
  parameters of `callback`.
-/

namespace DHTC

/-! ## Machine integers and bytes -/

/-- One byte of memory. -/
abbrev Byte := Fin 256

/-- Conversion of an integer to `int` (32 bits, two's complement wrap). -/
def toInt32 (x : Int) : Int := (x + 2147483648) % 4294967296 - 2147483648

/-- Value of a plain (signed) `char` that holds the byte `b`. -/
def charOf (b : Byte) : Int :=
  if b.val < 128 then (b.val : Int) else (b.val : Int) - 256

/-- Rendering by `%hhu` in printf: the `int` argument is converted to
`unsigned char` and written in decimal. -/
def fmt_hhu (v : Int) : String := toString (v % 256).toNat

/-- Rendering by `%hu` in printf: the argument is converted to
`unsigned short` and written in decimal. -/
def fmt_hu (v : Nat) : String := toString (v % 65536)

/-- Load of an `unsigned short` from two adjacent bytes on the little-endian
host: the byte at the lower address is the low half. -/
def load_u16 (b0 b1 : Byte) : Nat := b0.val + 256 * b1.val

/-- Network-to-host conversion `ntohs` on the little-endian host: the two
halves of the 16-bit value are swapped. -/
def ntohs (v : Nat) : Nat := (v % 256) * 256 + (v / 256) % 256

/-! ## `callback` (lines 50-68) -/

/-- One iteration of the loop body of `callback` (lines 60-65): the line
printed for loop index `i`.  The five reads are at offsets `i*6+0 .. i*6+5`
of `data`. -/
def callback_line (data : List Byte) (i : Nat) : String :=
  fmt_hhu (charOf (data.getD (i * 6 + 0) 0)) ++ "." ++
  fmt_hhu (charOf (data.getD (i * 6 + 1) 0)) ++ "." ++
  fmt_hhu (charOf (data.getD (i * 6 + 2) 0)) ++ "." ++
  fmt_hhu (charOf (data.getD (i * 6 + 3) 0)) ++ ":" ++
  fmt_hu (ntohs (load_u16 (data.getD (i * 6 + 4) 0) (data.getD (i * 6 + 5) 0)))

/-- The function `callback`: the lines it writes to standard output, in
order.  `data_len` is the length of `data`; the loop bound is
`(int)(data_len / 6)`.  `DHT_EVENT_SEARCH_DONE` and `DHT_EVENT_VALUES` are
the event codes of `dht.h`. -/
def callback (DHT_EVENT_SEARCH_DONE DHT_EVENT_VALUES : Int) (event : Int)
    (data : List Byte) : List String :=
  if event = DHT_EVENT_SEARCH_DONE then
    ["Search done."]
  else if event = DHT_EVENT_VALUES then
    let n : Int := toInt32 ((data.length / 6 : Nat) : Int)
    ("Received " ++ toString n ++ " values.") ::
      (List.range n.toNat).map (callback_line data)
  else
    []

/-! ### Reading of a payload as records (the specification side) -/

/-- An IPv4 peer record as the specification describes it: four address
bytes and the two bytes of the port, most significant first. -/
structure Peer4 where
  a : Byte
  b : Byte
  c : Byte
  d : Byte
  p_hi : Byte
  p_lo : Byte
  deriving DecidableEq, Repr

/-- The six bytes of a record, in wire order. -/
def Peer4.bytes (r : Peer4) : List Byte := [r.a, r.b, r.c, r.d, r.p_hi, r.p_lo]

/-- The line `a.b.c.d:p` of a record: decimal address bytes and the port read
as a big-endian 16-bit unsigned integer. -/
def Peer4.line (r : Peer4) : String :=
  toString r.a.val ++ "." ++ toString r.b.val ++ "." ++
  toString r.c.val ++ "." ++ toString r.d.val ++ ":" ++
  toString (256 * r.p_hi.val + r.p_lo.val)

/-- The payload made of the given records, in order. -/
def payload4 : List Peer4 → List Byte
  | [] => []
  | r :: rs => r.bytes ++ payload4 rs

/-- The successive whole 6-byte groups of a byte sequence (a trailing group
of fewer than six bytes is dropped). -/
def chunk6 : List Byte → List Peer4
  | a :: b :: c :: d :: e :: f :: rest => ⟨a, b, c, d, e, f⟩ :: chunk6 rest
  | _ => []

/-- The concatenation of byte records into one payload. -/
def concatRecords : List (List Byte) → List Byte
  | [] => []
  | r :: rs => r ++ concatRecords rs


/-! ## `run_resolver` (lines 70-142) -/

/-- The `errno` value of an interrupted system call. -/
def EINTR : Int := 4

/-- The `errno` value of a bad address. -/
def EFAULT : Int := 14

/-- The `errno` value of an invalid argument. -/
def EINVAL : Int := 22

/-- Address family of IPv4. -/
def AF_INET : Int := 2

/-- Address family of IPv6. -/
def AF_INET6 : Int := 10

/-- Size of the static receive buffer `buf` (line 70). -/
def BUF_SIZE : Nat := 4096

/-- A call that leaves `run_resolver` or the loop of `main`, with the
arguments that matter. -/
inductive Action
  | select (nfds : Int) (fds : List Int) (tv_sec : Int) (tv_usec : Nat)
  | perror (msg : String)
  | sleep (seconds : Nat)
  | recvfrom (fd : Int) (cap : Nat)
  | dht_periodic (data : Option (List Byte)) (buflen : Int)
  | printf (line : String)
  | dht_search (hash : List Byte) (port : Int) (af : Int)
  | dht_get_nodes
  | dht_uninit
  deriving DecidableEq, Repr

/-- Answers of the outside world during one call of `run_resolver` (and the
loop body of `main` after it). -/
structure Env where
  /-- Result of `random()` (line 77). -/
  random : Nat
  /-- Result of `select` (line 87). -/
  select_rc : Int
  /-- Value of `errno` read at line 89. -/
  select_errno : Int
  /-- Descriptors present in `readfds` after `select`. -/
  readfds : List Int
  /-- Value of the flag `exiting` read at line 95. -/
  exiting : Bool
  /-- Datagram at the head of the queue of the socket that is read, or `none`
  when `recvfrom` fails. -/
  recv : Option (List Byte)
  /-- Result of `dht_periodic`. -/
  periodic_rc : Int
  /-- Value of `errno` read at line 118. -/
  periodic_errno : Int
  /-- Value of `*tosleep` when `dht_periodic` returns. -/
  periodic_tosleep : Int
  /-- Result of `time(NULL)` at line 132. -/
  time_check : Int
  /-- Result of `time(NULL)` at line 138. -/
  time_store : Int
  /-- Results of `dht_get_nodes` (line 355): total, IPv4 count, IPv6 count. -/
  good_nodes : Int × Int × Int
  deriving DecidableEq, Repr

/-- The variables that live across calls of `run_resolver`: the locals
`tosleep`, `s`, `s6` of `main`, the static `last_run` and the static `buf`. -/
structure State where
  tosleep : Int
  s : Int
  s6 : Int
  last_run : Int
  buf : List Byte
  deriving DecidableEq, Repr

/-- How a call ends. -/
inductive Outcome
  /-- The function returns the value `rc`. -/
  | returned (rc : Int)
  /-- The function calls `abort()`. -/
  | aborted
  /-- A store falls outside `buf`. -/
  | overrun
  deriving DecidableEq, Repr

/-- Result of a run: how it ended, the variables afterwards, the calls made. -/
structure Step where
  outcome : Outcome
  st : State
  trace : List Action
  deriving DecidableEq, Repr

/-- The library call `recvfrom` on a datagram socket with a buffer of `cap`
bytes: the first `cap` bytes of the datagram are stored at the start of the
buffer, the rest of the datagram is discarded, and the number of bytes stored
is returned; `-1` on failure, the buffer untouched. -/
def recvfrom (cap : Nat) (buf : List Byte) : Option (List Byte) → Int × List Byte
  | none => (-1, buf)
  | some d => (((d.take cap).length : Nat), d.take cap ++ buf.drop (d.take cap).length)

/-- The store `buf[i] = v`, checked against the size of `buf`. -/
def store (buf : List Byte) (i : Nat) (v : Byte) : Option (List Byte) :=
  if i < BUF_SIZE then some (buf.set i v) else none

/-- Lines 76-93 of `run_resolver`: the wait.  The descriptors put in
`readfds`, the call of `select`, and the report of a failure that is not an
interruption. -/
def run_resolver_wait (env : Env) (st : State) : List Action :=
  Action.select (if st.s > st.s6 then st.s + 1 else st.s6 + 1)
      ((if st.s ≥ 0 then [st.s] else []) ++ (if st.s6 ≥ 0 then [st.s6] else []))
      st.tosleep (env.random % 1000000)
    :: (if env.select_rc < 0 ∧ env.select_errno ≠ EINTR
        then [Action.perror "select", Action.sleep 1] else [])

/-- Lines 98-108 of `run_resolver`: the receive.  Gives the new value of
`rc`, the buffer and the calls made, or `none` when `abort()` is reached
(line 107). -/
def run_resolver_receive (env : Env) (st : State) :
    Option (Int × List Byte × List Action) :=
  if 0 < env.select_rc then
    if st.s ≥ 0 ∧ st.s ∈ env.readfds then
      let r := recvfrom (BUF_SIZE - 1) st.buf env.recv
      some (r.1, r.2, [Action.recvfrom st.s (BUF_SIZE - 1)])
    else if st.s6 ≥ 0 ∧ st.s6 ∈ env.readfds then
      let r := recvfrom (BUF_SIZE - 1) st.buf env.recv
      some (r.1, r.2, [Action.recvfrom st.s6 (BUF_SIZE - 1)])
    else
      none
  else
    some (env.select_rc, st.buf, [])

/-- Lines 110-116 of `run_resolver`: the call of `dht_periodic`.  Gives the
buffer after the store of the terminator and the call made, or `none` when
the store is outside `buf`. -/
def run_resolver_dispatch (rc : Int) (buf : List Byte) : Option (List Byte × Action) :=
  if 0 < rc then
    match store buf rc.toNat 0 with
    | some b => some (b, Action.dht_periodic (some b) rc)
    | none => none
  else
    some (buf, Action.dht_periodic none 0)

/-- Lines 117-126 of `run_resolver`: the handling of the result of
`dht_periodic`.  The first component is `some o` when the function ends here
with outcome `o`, and `none` when control goes on to line 132. -/
def run_resolver_failure (env : Env) (st : State) : Option Outcome × State × List Action :=
  if env.periodic_rc < 0 then
    if env.periodic_errno = EINTR then
      (some (Outcome.returned 0), st, [])
    else if env.periodic_rc = EINVAL ∨ env.periodic_rc = EFAULT then
      (some Outcome.aborted, st, [Action.perror "dht_periodic"])
    else
      (none, { st with tosleep := 1 }, [Action.perror "dht_periodic"])
  else
    (none, st, [])

/-- Lines 132-139 of `run_resolver`: the periodic search.  `last_run` is an
`int`, so the stored time is converted. -/
def run_resolver_search (hash : List Byte) (port : Int) (env : Env) (st : State) :
    State × List Action :=
  if env.time_check - st.last_run > 300 then
    ({ st with last_run := toInt32 env.time_store },
      Action.printf "triggering search"
        :: ((if st.s ≥ 0 then [Action.dht_search hash port AF_INET] else [])
          ++ (if st.s6 ≥ 0 then [Action.dht_search hash port AF_INET6] else [])))
  else
    (st, [])

/-- The function `run_resolver`: one iteration of the event loop. -/
def run_resolver (hash : List Byte) (port : Int) (env : Env) (st : State) : Step :=
  let t1 := run_resolver_wait env st
  if env.exiting then
    ⟨Outcome.returned 1, st, t1⟩
  else
    match run_resolver_receive env st with
    | none => ⟨Outcome.aborted, st, t1⟩
    | some (rc, buf, t2) =>
      match run_resolver_dispatch rc buf with
      | none => ⟨Outcome.overrun, { st with buf := buf }, t1 ++ t2⟩
      | some (buf2, call) =>
        let st2 : State := { st with buf := buf2, tosleep := env.periodic_tosleep }
        match run_resolver_failure env st2 with
        | (some o, st3, t3) => ⟨o, st3, t1 ++ t2 ++ [call] ++ t3⟩
        | (none, st3, t3) =>
          let r := run_resolver_search hash port env st3
          ⟨Outcome.returned 0, r.1, t1 ++ t2 ++ [call] ++ t3 ++ r.2⟩

/-- The loop of `main` (lines 350-360) over the answers of the outside world
for the successive iterations.  The outcome is `none` when the answers run
out while the loop is still running; `returned 0` is the return of `main`
after `dht_uninit`. -/
def main_loop (hash : List Byte) (port : Int) : List Env → State → Option Outcome × State × List Action
  | [], st => (none, st, [])
  | env :: rest, st =>
    let r := run_resolver hash port env st
    match r.outcome with
    | Outcome.returned rc =>
      if rc = 0 then
        let body : List Action :=
          [Action.dht_get_nodes,
           Action.printf ("Found " ++ toString env.good_nodes.1 ++ " (" ++
             toString env.good_nodes.2.1 ++ " + " ++ toString env.good_nodes.2.2 ++
             ") good nodes.")]
        let r2 := main_loop hash port rest r.st
        (r2.1, r2.2.1, r.trace ++ body ++ r2.2.2)
      else
        (some (Outcome.returned 0), r.st, r.trace ++ [Action.dht_uninit])
    | o => (some o, r.st, r.trace)

/-- Whether a call is a call of `dht_search`. -/
def Action.isSearch : Action → Bool
  | Action.dht_search _ _ _ => true
  | _ => false

/-- Whether a call is a call of `dht_periodic`. -/
def Action.isDispatch : Action → Bool
  | Action.dht_periodic _ _ => true
  | _ => false

/-- Whether a call is a call of `recvfrom`. -/
def Action.isReceive : Action → Bool
  | Action.recvfrom _ _ => true
  | _ => false

/-- Whether a call is a call of `sleep`. -/
def Action.isSleep : Action → Bool
  | Action.sleep _ => true
  | _ => false

/-- The calls of `dht_search` in a trace. -/
def searches (t : List Action) : List Action := t.filter Action.isSearch

/-- The calls of `dht_periodic` in a trace. -/
def dispatches (t : List Action) : List Action := t.filter Action.isDispatch

/-- The calls of `recvfrom` in a trace. -/
def receives (t : List Action) : List Action := t.filter Action.isReceive

/-- The calls of `sleep` in a trace. -/
def pauses (t : List Action) : List Action := t.filter Action.isSleep

/-! ## `main`: the node identity (lines 205-216) -/

/-- How the identity block of `main` ends. -/
inductive Startup
  /-- The call `exit(code)` after the diagnostic `msg` given to `perror`. -/
  | exited (code : Int) (msg : String)
  /-- Control goes on past line 216 with `myid` as given: 20 cells, `none`
  for a cell that was never written. -/
  | proceeds (myid : List (Option Byte))
  deriving DecidableEq, Repr

/-- The system call `read` with a buffer of `count` cells: `none` is a
failure (result `-1`, buffer untouched); `some bytes` is a read that obtains
`bytes`, of which at most `count` are stored at the start of the buffer, the
result being the number stored. -/
def posix_read (count : Nat) (mem : List (Option Byte)) :
    Option (List Byte) → Int × List (Option Byte)
  | none => (-1, mem)
  | some bytes =>
    (((bytes.take count).length : Nat),
      (bytes.take count).map some ++ mem.drop (bytes.take count).length)

/-- Lines 205-216 of `main`: `open_rc` is the result of `open`, `rd` what the
read of 20 bytes from the descriptor does. -/
def main_identity (open_rc : Int) (rd : Option (List Byte)) : Startup :=
  if open_rc < 0 then
    Startup.exited 1 "open(random)"
  else
    let r := posix_read 20 (List.replicate 20 none) rd
    if r.1 < 0 then
      Startup.exited 1 "read(random)"
    else
      Startup.proceeds r.2

/-! ## `main`: the bootstrap addresses (lines 24-26 and 236-266) -/

/-- Capacity of the array `bootstrap_nodes` (line 24). -/
def MAX_BOOTSTRAP_NODES : Nat := 20

/-- A resolved socket address: family, address bytes, port. -/
structure SockAddr where
  family : Int
  addr : List Byte
  port : Nat
  deriving DecidableEq, Repr

/-- The globals written by the loop at lines 236-266: the counter
`num_bootstrap_nodes` and the stores made into the array `bootstrap_nodes`,
as (index, value) in the order they are made.  Every store recorded here is
inside the array. -/
structure Bootstrap where
  num_bootstrap_nodes : Nat
  stores : List (Nat × SockAddr)
  deriving DecidableEq, Repr

/-- How the loop at lines 236-266 ends. -/
inductive ParseEnd
  /-- The loop runs to its end. -/
  | done
  /-- The jump to `usage` (line 254). -/
  | usage
  /-- The call `exit(1)` after a failure of `getaddrinfo` (line 249). -/
  | resolve_failed
  /-- The copy of line 258 is reached with `num_bootstrap_nodes` equal to
  `index`, at or above the capacity of the array: the store through
  `bootstrap_nodes[index]` falls outside the array.  What the program does
  from there is not defined by the language (the bytes after the array belong
  to other objects), so the run is followed no further. -/
  | overrun (index : Nat)
  deriving DecidableEq, Repr

/-- Lines 258-261: one turn of the inner loop, the copy of one address into
`bootstrap_nodes[num_bootstrap_nodes]` and the increment.  The code makes no
test before the copy; the result is `none` when the destination is outside
the array of `MAX_BOOTSTRAP_NODES` elements. -/
def bootstrap_add (b : Bootstrap) (a : SockAddr) : Option Bootstrap :=
  if b.num_bootstrap_nodes < MAX_BOOTSTRAP_NODES then
    some { num_bootstrap_nodes := b.num_bootstrap_nodes + 1,
           stores := b.stores ++ [(b.num_bootstrap_nodes, a)] }
  else
    none

/-- Lines 256-262: the inner loop over the addresses of one resolution.  The
second component is `some index` when the loop is cut short by a store
outside the array, the globals being those before that store. -/
def bootstrap_copy : List SockAddr → Bootstrap → Bootstrap × Option Nat
  | [], b => (b, none)
  | a :: rest, b =>
    match bootstrap_add b a with
    | some b2 => bootstrap_copy rest b2
    | none => (b, some b.num_bootstrap_nodes)

/-- Lines 236-266 of `main` over the arguments that follow the port.
`resolve host service` is the result of `getaddrinfo`: `none` for a failure,
otherwise the list of addresses (`service` is `none` when `argv[i + 1]` is
the terminating null pointer of `argv`). -/
def main_bootstrap (resolve : String → Option String → Option (List SockAddr)) :
    List String → Bootstrap → ParseEnd × Bootstrap
  | [], b => (ParseEnd.done, b)
  | [host], b =>
    match resolve host none with
    | none => (ParseEnd.resolve_failed, b)
    | some _ => (ParseEnd.usage, b)
  | host :: service :: rest, b =>
    match resolve host (some service) with
    | none => (ParseEnd.resolve_failed, b)
    | some addrs =>
      match bootstrap_copy addrs b with
      | (b2, none) => main_bootstrap resolve rest b2
      | (b2, some index) => (ParseEnd.overrun index, b2)

/-! ## `dht_hash` (lines 393-411) -/

/-- The three input buffers of `dht_hash`. -/
inductive HashArg
  | v1
  | v2
  | v3
  deriving DecidableEq, Repr

/-- The expression `CRYPT_HAPPY(c)` (line 402) on a `char` value, with the
remainder of C (truncated towards zero). -/
def CRYPT_HAPPY (c : Int) : Int := Int.tmod c 0x60 + 0x20

/-- The values taken by `i` in a loop `for (i = 0; i < bound && i < len; i++)`. -/
def loop_indices (bound : Nat) (len : Int) : List Nat :=
  (List.range bound).takeWhile (fun i => decide ((i : Int) < len))

/-- The reads `c1[i]`, `c2[i]`, `c3[i]` made by the three loops at lines
404-409, in order.  All three loops are bounded by `len1`; `len2` and `len3`
do not occur in the function body. -/
def dht_hash_reads (len1 : Int) (_len2 _len3 : Int) : List (HashArg × Nat) :=
  (loop_indices 2 len1).map (fun i => (HashArg.v1, i)) ++
  (loop_indices 4 len1).map (fun i => (HashArg.v2, i)) ++
  (loop_indices 2 len1).map (fun i => (HashArg.v3, i))

/-- Position in `key` written from a read: `key[i]`, `key[2 + i]`, `key[6 + i]`. -/
def key_index : HashArg × Nat → Nat
  | (HashArg.v1, i) => i
  | (HashArg.v2, i) => 2 + i
  | (HashArg.v3, i) => 6 + i

/-- The key built at lines 401-409 of `dht_hash`, with every read checked
against the buffer it reads: `none` when a read is outside its buffer. -/
def dht_hash_key (c1 c2 c3 : List Byte) (len1 len2 len3 : Int) : Option (List Int) :=
  (dht_hash_reads len1 len2 len3).foldlM
    (fun key rd =>
      let src := match rd.1 with
        | HashArg.v1 => c1
        | HashArg.v2 => c2
        | HashArg.v3 => c3
      match src[rd.2]? with
      | some c => some (key.set (key_index rd) (CRYPT_HAPPY (charOf c)))
      | none => none)
    (List.replicate 9 0)

/-! ## Concrete inputs used in the examples -/

/-- Answers of a quiet iteration: the wait times out, nothing is readable,
the engine succeeds and asks to be called again in 5 seconds, the clock
reads 1300 at both readings. -/
def quietEnv : Env :=
  { random := 7, select_rc := 0, select_errno := 0, readfds := [], exiting := false,
    recv := none, periodic_rc := 0, periodic_errno := 0, periodic_tosleep := 5,
    time_check := 1300, time_store := 1300, good_nodes := (0, 0, 0) }

/-- Variables of a driver with both sockets open (descriptors 3 and 4), a
sleep timer of 0, a last search at time 1000 and a zeroed receive buffer. -/
def idleState : State :=
  { tosleep := 0, s := 3, s6 := 4, last_run := 1000, buf := List.replicate 4096 0 }

/-- Answers of a quiet iteration in which the clock reads 1301 at both
readings, 301 seconds after the last search of `idleState`. -/
def lateEnv : Env := { quietEnv with time_check := 1301, time_store := 1301 }

/-- Answers of an iteration in which `dht_periodic` returns -1 with `errno`
equal to `EINVAL`. -/
def einvalEnv : Env := { quietEnv with periodic_rc := -1, periodic_errno := EINVAL }

/-- Answers of an iteration in which `select` is interrupted: it returns -1
with `errno` equal to `EINTR`. -/
def eintrEnv : Env := { quietEnv with select_rc := -1, select_errno := EINTR }

/-- Answers of an iteration in which the exit flag is set while a datagram is
readable on the IPv4 socket (descriptor 3). -/
def exitEnv : Env :=
  { quietEnv with exiting := true, select_rc := 1, readfds := [3], recv := some [1, 2, 3] }

/-- A datagram of 5000 bytes, longer than the receive buffer. -/
def longDatagram : List Byte := List.replicate 5000 7

/-- Answers of an iteration in which `longDatagram` is readable on the IPv4
socket (descriptor 3). -/
def floodEnv : Env :=
  { quietEnv with select_rc := 1, readfds := [3], recv := some longDatagram }

/-- The payload of the scenario of the specification: the records of
`192.0.2.1:6881` and `192.0.2.2:6882`. -/
def twoPeers : List Peer4 :=
  [⟨0xC0, 0x00, 0x02, 0x01, 0x1A, 0xE1⟩, ⟨0xC0, 0x00, 0x02, 0x02, 0x1A, 0xE2⟩]

/-- One IPv6 peer record of 18 bytes: the address `2001:db8::1` and the port
6881. -/
def peer6Record : List Byte :=
  [0x20, 0x01, 0x0d, 0xb8, 0, 0, 0, 0, 0, 0, 0, 0, 0, 0, 0, 0x01, 0x1A, 0xE1]

/-- A resolver that gives every (host, service) pair the single address
`192.0.2.1:6881`. -/
def resolveOne : String → Option String → Option (List SockAddr) :=
  fun _ _ => some [⟨AF_INET, [192, 0, 2, 1], 6881⟩]

/-- The command-line arguments after the port: 21 (host, port) pairs. -/
def pairs21 : List String :=
  (List.replicate 21 ["192.0.2.1", "6881"]).flatten

/-! ## Lemmas on `callback` -/

theorem toInt32_of_range (x : Int) (h0 : -2147483648 ≤ x) (h1 : x < 2147483648) :
    toInt32 x = x := by
  unfold toInt32
  omega

theorem fmt_hhu_charOf (b : Byte) : fmt_hhu (charOf b) = toString b.val := by
  have hb : b.val < 256 := b.isLt
  have : (charOf b % 256).toNat = b.val := by
    unfold charOf
    split <;> omega
  simp [fmt_hhu, this]

theorem ntohs_load_u16 (b0 b1 : Byte) :
    ntohs (load_u16 b0 b1) = 256 * b0.val + b1.val := by
  have h0 : b0.val < 256 := b0.isLt
  have h1 : b1.val < 256 := b1.isLt
  unfold ntohs load_u16
  omega

theorem fmt_hu_port (b0 b1 : Byte) :
    fmt_hu (ntohs (load_u16 b0 b1)) = toString (256 * b0.val + b1.val) := by
  have h0 : b0.val < 256 := b0.isLt
  have h1 : b1.val < 256 := b1.isLt
  have : (256 * b0.val + b1.val) % 65536 = 256 * b0.val + b1.val := by omega
  simp [fmt_hu, ntohs_load_u16, this]

theorem getD_skip6 (a b c d e f : Byte) (rest : List Byte) (i k : Nat) :
    (a :: b :: c :: d :: e :: f :: rest).getD ((i + 1) * 6 + k) 0 = rest.getD (i * 6 + k) 0 := by
  have h : (i + 1) * 6 + k = (i * 6 + k) + 1 + 1 + 1 + 1 + 1 + 1 := by ring
  rw [h]
  simp only [List.getD_cons_succ]

theorem callback_line_zero (a b c d e f : Byte) (rest : List Byte) :
    callback_line (a :: b :: c :: d :: e :: f :: rest) 0 = Peer4.line ⟨a, b, c, d, e, f⟩ := by
  simp [callback_line, Peer4.line, fmt_hhu_charOf, fmt_hu_port]

theorem callback_line_succ (a b c d e f : Byte) (rest : List Byte) (i : Nat) :
    callback_line (a :: b :: c :: d :: e :: f :: rest) (i + 1) = callback_line rest i := by
  simp only [callback_line, getD_skip6]

theorem callback_lines_eq_chunk6 :
    ∀ data : List Byte,
      (List.range (data.length / 6)).map (callback_line data) = (chunk6 data).map Peer4.line
  | a :: b :: c :: d :: e :: f :: rest => by
    have hlen : (a :: b :: c :: d :: e :: f :: rest).length / 6 = rest.length / 6 + 1 := by
      simp only [List.length_cons]
      omega
    rw [hlen, List.range_succ_eq_map, List.map_cons, List.map_map, callback_line_zero]
    have hfun : callback_line (a :: b :: c :: d :: e :: f :: rest) ∘ Nat.succ
        = callback_line rest := by
      funext i
      exact callback_line_succ a b c d e f rest i
    rw [hfun, callback_lines_eq_chunk6 rest]
    simp [chunk6]
  | [] => by simp [chunk6]
  | [_] => by simp [chunk6]
  | [_, _] => by simp [chunk6]
  | [_, _, _] => by simp [chunk6]
  | [_, _, _, _] => by simp [chunk6]
  | [_, _, _, _, _] => by simp [chunk6]

theorem chunk6_length : ∀ data : List Byte, (chunk6 data).length = data.length / 6
  | a :: b :: c :: d :: e :: f :: rest => by
    simp only [chunk6, List.length_cons, chunk6_length rest]
    omega
  | [] => by simp [chunk6]
  | [_] => by simp [chunk6]
  | [_, _] => by simp [chunk6]
  | [_, _, _] => by simp [chunk6]
  | [_, _, _, _] => by simp [chunk6]
  | [_, _, _, _, _] => by simp [chunk6]

theorem chunk6_payload4 : ∀ rs : List Peer4, chunk6 (payload4 rs) = rs
  | [] => by simp [payload4, chunk6]
  | r :: rs => by
    simp [payload4, Peer4.bytes, chunk6, chunk6_payload4 rs]

theorem payload4_length : ∀ rs : List Peer4, (payload4 rs).length = 6 * rs.length
  | [] => by simp [payload4]
  | r :: rs => by
    simp only [payload4, List.length_append, payload4_length rs, Peer4.bytes, List.length_cons,
      List.length_nil]
    omega

theorem concatRecords_length (k : Nat) :
    ∀ recs : List (List Byte), (∀ r ∈ recs, r.length = k) →
      (concatRecords recs).length = k * recs.length
  | [], _ => by simp [concatRecords]
  | r :: rs, h => by
    have hr : r.length = k := h r (List.mem_cons_self r rs)
    have hrs : ∀ x ∈ rs, x.length = k := fun x hx => h x (List.mem_cons_of_mem r hx)
    simp only [concatRecords, List.length_append, concatRecords_length k rs hrs, hr,
      List.length_cons]
    ring

/-- Output of `callback` on a values event, for every payload whose length
fits in an `int`: the count line, then one line per whole 6-byte group. -/
theorem callback_values (SD V : Int) (data : List Byte) (hV : V ≠ SD)
    (hsz : data.length < 2147483648) :
    callback SD V V data =
      ("Received " ++ toString ((data.length / 6 : Nat) : Int) ++ " values.") ::
        (chunk6 data).map Peer4.line := by
  have hn : toInt32 ((data.length / 6 : Nat) : Int) = ((data.length / 6 : Nat) : Int) := by
    apply toInt32_of_range <;> omega
  simp only [callback, if_neg hV, if_true, hn, Int.toNat_ofNat, callback_lines_eq_chunk6]


/-! ## Lemmas on `run_resolver` -/

theorem searches_append (a b : List Action) : searches (a ++ b) = searches a ++ searches b := by
  simp [searches]

theorem dispatches_append (a b : List Action) :
    dispatches (a ++ b) = dispatches a ++ dispatches b := by
  simp [dispatches]

theorem receives_append (a b : List Action) : receives (a ++ b) = receives a ++ receives b := by
  simp [receives]

theorem wait_no_calls (env : Env) (st : State) :
    searches (run_resolver_wait env st) = [] ∧ dispatches (run_resolver_wait env st) = [] ∧
      receives (run_resolver_wait env st) = [] := by
  unfold run_resolver_wait
  by_cases h : env.select_rc < 0 ∧ env.select_errno ≠ EINTR
  · simp [h, searches, dispatches, receives, Action.isSearch, Action.isDispatch,
      Action.isReceive]
  · simp [h, searches, dispatches, receives, Action.isSearch, Action.isDispatch,
      Action.isReceive]

theorem recvfrom_rc_le (cap : Nat) (buf : List Byte) (r : Option (List Byte)) :
    (recvfrom cap buf r).1 ≤ (cap : Int) := by
  cases r with
  | none =>
    simp only [recvfrom]
    omega
  | some d =>
    simp only [recvfrom, List.length_take]
    omega

theorem receive_props (env : Env) (st : State) (rc : Int) (buf : List Byte) (t : List Action)
    (h : run_resolver_receive env st = some (rc, buf, t)) :
    rc ≤ 4095 ∧ searches t = [] ∧ dispatches t = [] := by
  unfold run_resolver_receive at h
  have hle := recvfrom_rc_le (BUF_SIZE - 1) st.buf env.recv
  simp only [BUF_SIZE] at hle h
  split at h
  · split at h
    · simp only [Option.some.injEq, Prod.mk.injEq] at h
      obtain ⟨h1, _, h3⟩ := h
      subst h1 h3
      refine ⟨by omega, by simp [searches, Action.isSearch], by simp [dispatches, Action.isDispatch]⟩
    · split at h
      · simp only [Option.some.injEq, Prod.mk.injEq] at h
        obtain ⟨h1, _, h3⟩ := h
        subst h1 h3
        refine ⟨by omega, by simp [searches, Action.isSearch], by simp [dispatches, Action.isDispatch]⟩
      · exact absurd h (by simp)
  · simp only [Option.some.injEq, Prod.mk.injEq] at h
    obtain ⟨h1, _, h3⟩ := h
    subst h1 h3
    refine ⟨by omega, by simp [searches, Action.isSearch], by simp [dispatches, Action.isDispatch]⟩

theorem receive_some (env : Env) (st : State)
    (hrecv : 0 < env.select_rc →
      (st.s ≥ 0 ∧ st.s ∈ env.readfds) ∨ (st.s6 ≥ 0 ∧ st.s6 ∈ env.readfds)) :
    ∃ rc buf t, run_resolver_receive env st = some (rc, buf, t) := by
  unfold run_resolver_receive
  by_cases h0 : 0 < env.select_rc
  · rcases hrecv h0 with h | h
    · simp [h0, h]
    · by_cases h4 : st.s ≥ 0 ∧ st.s ∈ env.readfds
      · simp [h0, h4]
      · simp [h0, h4, h]
  · simp [h0]

theorem dispatch_some (rc : Int) (buf : List Byte) (h : rc ≤ 4095) :
    ∃ b d, run_resolver_dispatch rc buf = some (b, Action.dht_periodic d (if 0 < rc then rc else 0)) := by
  unfold run_resolver_dispatch
  by_cases h0 : 0 < rc
  · have : rc.toNat < BUF_SIZE := by
      simp only [BUF_SIZE]
      omega
    simp [h0, store, this]
  · simp [h0]

/-- The test at line 122 compares the negative result of `dht_periodic` with
the positive `errno` numbers, so it never holds: the failure handling only
has the outcomes below. -/
theorem failure_eq (env : Env) (st : State) :
    run_resolver_failure env st =
      if env.periodic_rc < 0 then
        if env.periodic_errno = EINTR then (some (Outcome.returned 0), st, [])
        else (none, { st with tosleep := 1 }, [Action.perror "dht_periodic"])
      else (none, st, []) := by
  unfold run_resolver_failure
  by_cases h : env.periodic_rc < 0
  · have hne : ¬ (env.periodic_rc = EINVAL ∨ env.periodic_rc = EFAULT) := by
      simp only [EINVAL, EFAULT]
      omega
    simp [h, hne]
  · simp [h]


/-- Shape of a call of `run_resolver` that gets past the receive and the
store of the terminator: the three ways it can end. -/
theorem run_resolver_eq (hash : List Byte) (port : Int) (env : Env) (st : State)
    (hexit : env.exiting = false)
    (rc : Int) (buf : List Byte) (t2 : List Action)
    (hr : run_resolver_receive env st = some (rc, buf, t2))
    (b : List Byte) (call : Action) (hd : run_resolver_dispatch rc buf = some (b, call)) :
    run_resolver hash port env st =
      if env.periodic_rc < 0 then
        if env.periodic_errno = EINTR then
          ⟨Outcome.returned 0, { st with buf := b, tosleep := env.periodic_tosleep },
            run_resolver_wait env st ++ t2 ++ [call] ++ []⟩
        else
          ⟨Outcome.returned 0,
            (run_resolver_search hash port env { st with buf := b, tosleep := 1 }).1,
            run_resolver_wait env st ++ t2 ++ [call] ++ [Action.perror "dht_periodic"] ++
              (run_resolver_search hash port env { st with buf := b, tosleep := 1 }).2⟩
      else
        ⟨Outcome.returned 0,
          (run_resolver_search hash port env
            { st with buf := b, tosleep := env.periodic_tosleep }).1,
          run_resolver_wait env st ++ t2 ++ [call] ++ [] ++
            (run_resolver_search hash port env
              { st with buf := b, tosleep := env.periodic_tosleep }).2⟩ := by
  unfold run_resolver
  simp only [hexit, hr, hd, failure_eq]
  by_cases h : env.periodic_rc < 0
  · by_cases h2 : env.periodic_errno = EINTR
    · simp [h, h2]
    · simp [h, h2]
  · simp [h]

theorem search_fields (hash : List Byte) (port : Int) (env : Env) (st : State) :
    (run_resolver_search hash port env st).1.tosleep = st.tosleep ∧
    (run_resolver_search hash port env st).1.s = st.s ∧
    (run_resolver_search hash port env st).1.s6 = st.s6 ∧
    (run_resolver_search hash port env st).1.buf = st.buf ∧
    dispatches (run_resolver_search hash port env st).2 = [] ∧
    receives (run_resolver_search hash port env st).2 = [] := by
  unfold run_resolver_search
  by_cases h : env.time_check - st.last_run > 300
  · by_cases h4 : st.s ≥ 0 <;> by_cases h6 : st.s6 ≥ 0 <;>
      simp [h, h4, h6, dispatches, receives, Action.isDispatch, Action.isReceive]
  · simp [h, dispatches, receives]

theorem search_trigger (hash : List Byte) (port : Int) (env : Env) (st : State) :
    (300 < env.time_check - st.last_run →
      (run_resolver_search hash port env st).1.last_run = toInt32 env.time_store ∧
      searches (run_resolver_search hash port env st).2 =
        (if st.s ≥ 0 then [Action.dht_search hash port AF_INET] else []) ++
        (if st.s6 ≥ 0 then [Action.dht_search hash port AF_INET6] else [])) ∧
    (¬ 300 < env.time_check - st.last_run →
      (run_resolver_search hash port env st).1.last_run = st.last_run ∧
      searches (run_resolver_search hash port env st).2 = []) := by
  unfold run_resolver_search
  constructor
  · intro h
    have h' : env.time_check - st.last_run > 300 := h
    by_cases h4 : st.s ≥ 0 <;> by_cases h6 : st.s6 ≥ 0 <;>
      simp [h', h4, h6, searches, Action.isSearch]
  · intro h
    have h' : ¬ env.time_check - st.last_run > 300 := h
    simp [h', searches]

/-- A call of `run_resolver` that is not ended by the exit flag, by the
`abort()` of the receive or by an interrupted `dht_periodic` runs the search
block of lines 132-139 and returns 0. -/
theorem run_resolver_reaches_search (hash : List Byte) (port : Int) (env : Env) (st : State)
    (hexit : env.exiting = false)
    (hrecv : 0 < env.select_rc →
      (st.s ≥ 0 ∧ st.s ∈ env.readfds) ∨ (st.s6 ≥ 0 ∧ st.s6 ∈ env.readfds))
    (hintr : ¬ (env.periodic_rc < 0 ∧ env.periodic_errno = EINTR)) :
    ∃ (st2 : State) (pre : List Action),
      run_resolver hash port env st =
        ⟨Outcome.returned 0, (run_resolver_search hash port env st2).1,
          pre ++ (run_resolver_search hash port env st2).2⟩ ∧
      st2.last_run = st.last_run ∧ st2.s = st.s ∧ st2.s6 = st.s6 ∧
      st2.tosleep = (if env.periodic_rc < 0 then 1 else env.periodic_tosleep) ∧
      searches pre = [] := by
  obtain ⟨rc, buf, t2, hr⟩ := receive_some env st hrecv
  obtain ⟨hle, hs2, _⟩ := receive_props env st rc buf t2 hr
  obtain ⟨b, d, hd⟩ := dispatch_some rc buf hle
  have hw := (wait_no_calls env st).1
  rw [run_resolver_eq hash port env st hexit rc buf t2 hr b _ hd]
  by_cases h : env.periodic_rc < 0
  · have h2 : ¬ env.periodic_errno = EINTR := fun e => hintr ⟨h, e⟩
    refine ⟨{ st with buf := b, tosleep := 1 },
      run_resolver_wait env st ++ t2 ++ [Action.dht_periodic d (if 0 < rc then rc else 0)] ++
        [Action.perror "dht_periodic"], ?_, rfl, rfl, rfl, ?_, ?_⟩
    · simp only [if_pos h, if_neg h2]
    · simp only [if_pos h]
    · simp only [searches_append, hw, hs2]
      rfl
  · refine ⟨{ st with buf := b, tosleep := env.periodic_tosleep },
      run_resolver_wait env st ++ t2 ++ [Action.dht_periodic d (if 0 < rc then rc else 0)] ++ [],
      ?_, rfl, rfl, rfl, ?_, ?_⟩
    · simp only [if_neg h]
    · simp only [if_neg h]
    · simp only [searches_append, hw, hs2]
      rfl

theorem pauses_append (a b : List Action) : pauses (a ++ b) = pauses a ++ pauses b := by
  simp [pauses]

theorem search_no_pause (hash : List Byte) (port : Int) (env : Env) (st : State) :
    pauses (run_resolver_search hash port env st).2 = [] := by
  unfold run_resolver_search
  by_cases h : env.time_check - st.last_run > 300
  · by_cases h4 : st.s ≥ 0 <;> by_cases h6 : st.s6 ≥ 0 <;>
      simp [h, h4, h6, pauses, Action.isSleep]
  · simp [h, pauses]

theorem wait_no_pause (env : Env) (st : State) (h : env.select_errno = EINTR) :
    pauses (run_resolver_wait env st) = [] := by
  simp [run_resolver_wait, h, pauses, Action.isSleep]

/-! ## The claims on `run_resolver` -/

/-- C1 (as stated, refuted): a call that reaches the test of line 132 exactly
300 seconds after the last trigger (clock 1300, `last_run` 1000) makes no
call of `dht_search` and leaves `last_run` at 1000. -/
theorem run_resolver_no_search_at_300 :
    quietEnv.time_check - idleState.last_run = 300 ∧
    (run_resolver [] 6881 quietEnv idleState).outcome = Outcome.returned 0 ∧
    searches (run_resolver [] 6881 quietEnv idleState).trace = [] ∧
    (run_resolver [] 6881 quietEnv idleState).st.last_run = 1000 := by
  decide

/-- C1 (amended): for every call of `run_resolver` that reaches the test of
line 132, a search is triggered if and only if strictly more than 300 seconds
have elapsed (`now - last_run > 300`).  When it is, `dht_search` is called
once per open socket and `last_run` becomes the clock value read at line 138
converted to `int` (that value itself when it fits in an `int`); otherwise no
`dht_search` call is made and `last_run` is unchanged.  The call returns 0 in
both cases. -/
theorem run_resolver_search_threshold (hash : List Byte) (port : Int) (env : Env) (st : State)
    (hexit : env.exiting = false)
    (hrecv : 0 < env.select_rc →
      (st.s ≥ 0 ∧ st.s ∈ env.readfds) ∨ (st.s6 ≥ 0 ∧ st.s6 ∈ env.readfds))
    (hintr : ¬ (env.periodic_rc < 0 ∧ env.periodic_errno = EINTR)) :
    (run_resolver hash port env st).outcome = Outcome.returned 0 ∧
    (300 < env.time_check - st.last_run →
      (run_resolver hash port env st).st.last_run = toInt32 env.time_store ∧
      (-2147483648 ≤ env.time_store → env.time_store < 2147483648 →
        (run_resolver hash port env st).st.last_run = env.time_store) ∧
      searches (run_resolver hash port env st).trace =
        (if st.s ≥ 0 then [Action.dht_search hash port AF_INET] else []) ++
        (if st.s6 ≥ 0 then [Action.dht_search hash port AF_INET6] else [])) ∧
    (¬ 300 < env.time_check - st.last_run →
      (run_resolver hash port env st).st.last_run = st.last_run ∧
      searches (run_resolver hash port env st).trace = []) := by
  obtain ⟨st2, pre, heq, hl, h4, h6, _, hpre⟩ :=
    run_resolver_reaches_search hash port env st hexit hrecv hintr
  have htr := search_trigger hash port env st2
  rw [hl, h4, h6] at htr
  rw [heq]
  refine ⟨rfl, ?_, ?_⟩
  · intro h
    obtain ⟨hlast, hsearch⟩ := htr.1 h
    refine ⟨hlast, ?_, ?_⟩
    · intro h0 h1
      simp only [hlast]
      exact toInt32_of_range _ h0 h1
    · simp only [searches_append, hpre, hsearch, List.nil_append]
  · intro h
    obtain ⟨hlast, hsearch⟩ := htr.2 h
    refine ⟨hlast, ?_⟩
    simp only [searches_append, hpre, hsearch, List.append_nil]

/-- C1 (amended), at a concrete input: 301 seconds after the last trigger
(clock 1301, `last_run` 1000) the search is triggered on both sockets and
`last_run` becomes the clock value. -/
theorem run_resolver_search_threshold_witness :
    lateEnv.exiting = false ∧ ¬ (0 < lateEnv.select_rc) ∧
    ¬ (lateEnv.periodic_rc < 0 ∧ lateEnv.periodic_errno = EINTR) ∧
    lateEnv.time_check - idleState.last_run = 301 ∧
    (run_resolver [] 6881 lateEnv idleState).st.last_run = 1301 ∧
    searches (run_resolver [] 6881 lateEnv idleState).trace =
      [Action.dht_search [] 6881 AF_INET, Action.dht_search [] 6881 AF_INET6] :=
  have h := run_resolver_search_threshold [] 6881 lateEnv idleState
    (by decide) (by decide) (by decide)
  ⟨by decide, by decide, by decide, by decide,
    (h.2.1 (by decide)).2.1 (by decide) (by decide), (h.2.1 (by decide)).2.2⟩

/-- C4 (the code at the failing inputs and beyond): in every call in which
`dht_periodic` fails (negative result) with an `errno` other than `EINTR`,
`run_resolver` sets `*tosleep` to 1 and returns 0; it does so whatever the
`errno`, `EINVAL` and `EFAULT` included, because line 122 tests the negative
result and not `errno`, so `abort()` is never reached there. -/
theorem run_resolver_dispatch_failure_never_aborts (hash : List Byte) (port : Int)
    (env : Env) (st : State)
    (hexit : env.exiting = false)
    (hrecv : 0 < env.select_rc →
      (st.s ≥ 0 ∧ st.s ∈ env.readfds) ∨ (st.s6 ≥ 0 ∧ st.s6 ∈ env.readfds))
    (hfail : env.periodic_rc < 0) (hintr : env.periodic_errno ≠ EINTR) :
    (run_resolver hash port env st).outcome = Outcome.returned 0 ∧
    (run_resolver hash port env st).st.tosleep = 1 := by
  obtain ⟨st2, pre, heq, _, _, _, hts, _⟩ :=
    run_resolver_reaches_search hash port env st hexit hrecv (fun h => hintr h.2)
  rw [heq]
  refine ⟨rfl, ?_⟩
  simp only [(search_fields hash port env st2).1, hts, if_pos hfail]

/-- C4, at the failing input: the wait times out and `dht_periodic` returns
-1 with `errno` equal to `EINVAL`; the call does not abort, it returns 0 with
`*tosleep` equal to 1. -/
theorem run_resolver_dispatch_failure_never_aborts_witness :
    einvalEnv.exiting = false ∧ ¬ (0 < einvalEnv.select_rc) ∧
    einvalEnv.periodic_rc < 0 ∧ einvalEnv.periodic_errno = EINVAL ∧
    (run_resolver [] 6881 einvalEnv idleState).outcome = Outcome.returned 0 ∧
    (run_resolver [] 6881 einvalEnv idleState).st.tosleep = 1 :=
  ⟨by decide, by decide, by decide, rfl,
    run_resolver_dispatch_failure_never_aborts [] 6881 einvalEnv idleState
      (by decide) (by decide) (by decide) (by decide)⟩

/-- C5 (as stated, refuted): the wait is interrupted (`select` gives -1 with
`errno` equal to `EINTR`), the exit flag is clear, and the engine, called with
no data, asks for a wake-up in 5 seconds: `*tosleep` goes from 0 to 5. -/
theorem run_resolver_interrupted_wait_changes_tosleep :
    eintrEnv.select_rc < 0 ∧ eintrEnv.select_errno = EINTR ∧ eintrEnv.exiting = false ∧
    idleState.tosleep = 0 ∧
    (run_resolver [] 6881 eintrEnv idleState).st.tosleep = 5 ∧
    dispatches (run_resolver [] 6881 eintrEnv idleState).trace
      = [Action.dht_periodic none 0] := by
  decide

/-- C5 (amended): in every call in which the wait is interrupted (`select`
negative with `errno` equal to `EINTR`) while the exit flag is clear,
`run_resolver` makes no `recvfrom` and no pause (`sleep`), calls
`dht_periodic` exactly once, with no data, leaves the socket handles and the
receive buffer unchanged and returns 0 (the loop goes on); `*tosleep`
afterwards is the value the engine gave it, or 1 when the engine failed with
an `errno` other than `EINTR`. -/
theorem run_resolver_interrupted_wait (hash : List Byte) (port : Int) (env : Env) (st : State)
    (hsel : env.select_rc < 0) (herrno : env.select_errno = EINTR)
    (hexit : env.exiting = false) :
    (run_resolver hash port env st).outcome = Outcome.returned 0 ∧
    receives (run_resolver hash port env st).trace = [] ∧
    pauses (run_resolver hash port env st).trace = [] ∧
    dispatches (run_resolver hash port env st).trace = [Action.dht_periodic none 0] ∧
    (run_resolver hash port env st).st.s = st.s ∧
    (run_resolver hash port env st).st.s6 = st.s6 ∧
    (run_resolver hash port env st).st.buf = st.buf ∧
    (run_resolver hash port env st).st.tosleep =
      (if env.periodic_rc < 0 ∧ env.periodic_errno ≠ EINTR then 1
        else env.periodic_tosleep) := by
  have hn : ¬ 0 < env.select_rc := by omega
  have hr : run_resolver_receive env st = some (env.select_rc, st.buf, []) := by
    simp [run_resolver_receive, hn]
  have hd : run_resolver_dispatch env.select_rc st.buf
      = some (st.buf, Action.dht_periodic none 0) := by
    simp [run_resolver_dispatch, hn]
  obtain ⟨_, hwd, hwr⟩ := wait_no_calls env st
  have hwp := wait_no_pause env st herrno
  rw [run_resolver_eq hash port env st hexit _ _ _ hr _ _ hd]
  by_cases h : env.periodic_rc < 0
  · by_cases h2 : env.periodic_errno = EINTR
    · rw [if_pos h, if_pos h2]
      refine ⟨rfl, ?_, ?_, ?_, rfl, rfl, rfl, ?_⟩
      · simp only [receives_append, hwr]
        rfl
      · simp only [pauses_append, hwp]
        rfl
      · simp only [dispatches_append, hwd]
        rfl
      · simp [h2]
    · obtain ⟨f1, f2, f3, f4, f5, f6⟩ :=
        search_fields hash port env { st with buf := st.buf, tosleep := 1 }
      rw [if_pos h, if_neg h2]
      refine ⟨rfl, ?_, ?_, ?_, f2, f3, f4, ?_⟩
      · simp only [receives_append, hwr, f6]
        rfl
      · simp only [pauses_append, hwp, search_no_pause]
        rfl
      · simp only [dispatches_append, hwd, f5]
        rfl
      · simp [f1, h, h2]
  · obtain ⟨f1, f2, f3, f4, f5, f6⟩ :=
      search_fields hash port env { st with buf := st.buf, tosleep := env.periodic_tosleep }
    rw [if_neg h]
    refine ⟨rfl, ?_, ?_, ?_, f2, f3, f4, ?_⟩
    · simp only [receives_append, hwr, f6]
      rfl
    · simp only [pauses_append, hwp, search_no_pause]
      rfl
    · simp only [dispatches_append, hwd, f5]
      rfl
    · simp [f1, h]

/-- C5 (amended), at a concrete input: an interrupted wait followed by a
successful empty dispatch in which the engine asks for 5 seconds. -/
theorem run_resolver_interrupted_wait_witness :
    eintrEnv.select_rc < 0 ∧ eintrEnv.select_errno = EINTR ∧ eintrEnv.exiting = false ∧
    (run_resolver [] 6881 eintrEnv idleState).outcome = Outcome.returned 0 ∧
    receives (run_resolver [] 6881 eintrEnv idleState).trace = [] ∧
    pauses (run_resolver [] 6881 eintrEnv idleState).trace = [] ∧
    dispatches (run_resolver [] 6881 eintrEnv idleState).trace
      = [Action.dht_periodic none 0] :=
  have h := run_resolver_interrupted_wait [] 6881 eintrEnv idleState
    (by decide) (by decide) (by decide)
  ⟨by decide, by decide, by decide, h.1, h.2.1, h.2.2.1, h.2.2.2.1⟩

/-- C6: in every call in which the flag `exiting` is set when it is read,
`run_resolver` returns 1 (non-zero), so the loop of `main` ends (it calls
`dht_uninit` and returns); the call makes no `recvfrom`, no `dht_periodic` and
no `dht_search`, and leaves every variable, `*tosleep` and `last_run`
included, as it was, whatever `select` reported as readable. -/
theorem run_resolver_exiting (hash : List Byte) (port : Int) (env : Env) (st : State)
    (hexit : env.exiting = true) :
    (run_resolver hash port env st).outcome = Outcome.returned 1 ∧
    (run_resolver hash port env st).st = st ∧
    receives (run_resolver hash port env st).trace = [] ∧
    dispatches (run_resolver hash port env st).trace = [] ∧
    searches (run_resolver hash port env st).trace = [] ∧
    (∀ rest : List Env, main_loop hash port (env :: rest) st =
      (some (Outcome.returned 0), st,
        (run_resolver hash port env st).trace ++ [Action.dht_uninit])) := by
  obtain ⟨hws, hwd, hwr⟩ := wait_no_calls env st
  have hrun : run_resolver hash port env st
      = ⟨Outcome.returned 1, st, run_resolver_wait env st⟩ := by
    simp [run_resolver, hexit]
  refine ⟨by rw [hrun], by rw [hrun], by rw [hrun]; exact hwr, by rw [hrun]; exact hwd,
    by rw [hrun]; exact hws, ?_⟩
  intro rest
  simp [main_loop, hrun]

/-- C6, at a concrete input: the flag is set while a datagram is readable on
the IPv4 socket. -/
theorem run_resolver_exiting_witness :
    exitEnv.exiting = true ∧ 0 < exitEnv.select_rc ∧ idleState.s ∈ exitEnv.readfds ∧
    (run_resolver [] 6881 exitEnv idleState).outcome = Outcome.returned 1 ∧
    (run_resolver [] 6881 exitEnv idleState).st = idleState ∧
    dispatches (run_resolver [] 6881 exitEnv idleState).trace = [] :=
  have h := run_resolver_exiting [] 6881 exitEnv idleState (by decide)
  ⟨by decide, by decide, by decide, h.1, h.2.1, h.2.2.2.1⟩

theorem take_set_self {α : Type} (a : α) : ∀ (l : List α) (n : Nat), (l.set n a).take n = l.take n
  | [], n => by simp
  | x :: l, 0 => by simp
  | x :: l, n + 1 => by simp [take_set_self a l n]

/-- The trace and buffer of a call of `run_resolver` that gets past the
receive and the store of the terminator: exactly one call of `dht_periodic`,
the one prepared at lines 110-116. -/
theorem run_resolver_one_dispatch (hash : List Byte) (port : Int) (env : Env) (st : State)
    (hexit : env.exiting = false)
    (rc : Int) (buf : List Byte) (t2 : List Action)
    (hr : run_resolver_receive env st = some (rc, buf, t2))
    (b : List Byte) (call : Action) (hd : run_resolver_dispatch rc buf = some (b, call))
    (hcall : call.isDispatch = true) :
    (run_resolver hash port env st).outcome = Outcome.returned 0 ∧
    dispatches (run_resolver hash port env st).trace = [call] ∧
    (run_resolver hash port env st).st.buf = b := by
  obtain ⟨_, hwd, _⟩ := wait_no_calls env st
  obtain ⟨_, _, hd2⟩ := receive_props env st rc buf t2 hr
  have hc : dispatches [call] = [call] := by simp [dispatches, hcall]
  have hp : dispatches [Action.perror "dht_periodic"] = [] := rfl
  have hnil : dispatches [] = [] := rfl
  rw [run_resolver_eq hash port env st hexit rc buf t2 hr b call hd]
  by_cases h : env.periodic_rc < 0
  · by_cases h2 : env.periodic_errno = EINTR
    · rw [if_pos h, if_pos h2]
      refine ⟨rfl, ?_, rfl⟩
      simp only [dispatches_append, hwd, hd2, hc, hnil, List.nil_append, List.append_nil]
    · obtain ⟨_, _, _, f4, f5, _⟩ :=
        search_fields hash port env { st with buf := b, tosleep := 1 }
      rw [if_pos h, if_neg h2]
      refine ⟨rfl, ?_, f4⟩
      simp only [dispatches_append, hwd, hd2, hc, hp, f5, List.nil_append, List.append_nil]
  · obtain ⟨_, _, _, f4, f5, _⟩ :=
      search_fields hash port env { st with buf := b, tosleep := env.periodic_tosleep }
    rw [if_neg h]
    refine ⟨rfl, ?_, f4⟩
    simp only [dispatches_append, hwd, hd2, hc, hnil, f5, List.nil_append, List.append_nil]

/-- C8: in every call that receives a datagram `d` of length `L >= 1`, the
single call of `dht_periodic` gets the length `n = min(L, 4095)` and the
buffer whose first `n` bytes are the first `n` bytes of `d`; the terminator
is stored at index `n`, with `n < 4096`, inside the 4096-byte buffer (the
store never falls outside it, the buffer keeps its size), so a datagram
longer than the buffer is truncated and still dispatched. -/
theorem run_resolver_receive_truncates (hash : List Byte) (port : Int) (env : Env) (st : State)
    (d : List Byte)
    (hexit : env.exiting = false) (hsel : 0 < env.select_rc)
    (hready : (st.s ≥ 0 ∧ st.s ∈ env.readfds) ∨ (st.s6 ≥ 0 ∧ st.s6 ∈ env.readfds))
    (hrecv : env.recv = some d) (hlen : 1 ≤ d.length) (hbuf : st.buf.length = BUF_SIZE) :
    dispatches (run_resolver hash port env st).trace =
      [Action.dht_periodic
        (some ((d.take 4095 ++ st.buf.drop (min d.length 4095)).set (min d.length 4095) 0))
        ((min d.length 4095 : Nat) : Int)] ∧
    (run_resolver hash port env st).st.buf =
      (d.take 4095 ++ st.buf.drop (min d.length 4095)).set (min d.length 4095) 0 ∧
    (run_resolver hash port env st).outcome = Outcome.returned 0 ∧
    min d.length 4095 < BUF_SIZE ∧
    ((d.take 4095 ++ st.buf.drop (min d.length 4095)).set (min d.length 4095) 0).length
      = BUF_SIZE ∧
    ((d.take 4095 ++ st.buf.drop (min d.length 4095)).set (min d.length 4095) 0).take
      (min d.length 4095) = d.take (min d.length 4095) ∧
    ((d.take 4095 ++ st.buf.drop (min d.length 4095)).set (min d.length 4095) 0)[min d.length 4095]?
      = some 0 := by
  have hn : (d.take 4095).length = min d.length 4095 := by
    rw [List.length_take, Nat.min_comm]
  have hlt : min d.length 4095 < 4096 := by omega
  have hpos : 0 < min d.length 4095 := by omega
  have htake : d.take 4095 = d.take (min d.length 4095) := by
    rw [List.take_eq_take]
    omega
  have hlen2 : (d.take 4095 ++ st.buf.drop (min d.length 4095)).length = 4096 := by
    rw [List.length_append, hn, List.length_drop, hbuf, BUF_SIZE]
    omega
  obtain ⟨fd, hr⟩ : ∃ fd, run_resolver_receive env st =
      some (((min d.length 4095 : Nat) : Int), d.take 4095 ++ st.buf.drop (min d.length 4095),
        [Action.recvfrom fd 4095]) := by
    unfold run_resolver_receive
    by_cases h4 : st.s ≥ 0 ∧ st.s ∈ env.readfds
    · exact ⟨st.s, by simp [hsel, h4, hrecv, recvfrom, BUF_SIZE, hn]⟩
    · rcases hready with h | h
      · exact absurd h h4
      · exact ⟨st.s6, by simp [hsel, h4, h, hrecv, recvfrom, BUF_SIZE, hn]⟩
  have hd : run_resolver_dispatch ((min d.length 4095 : Nat) : Int)
      (d.take 4095 ++ st.buf.drop (min d.length 4095)) =
      some ((d.take 4095 ++ st.buf.drop (min d.length 4095)).set (min d.length 4095) 0,
        Action.dht_periodic
          (some ((d.take 4095 ++ st.buf.drop (min d.length 4095)).set (min d.length 4095) 0))
          ((min d.length 4095 : Nat) : Int)) := by
    have h0 : (0 : Int) < ((min d.length 4095 : Nat) : Int) := by omega
    simp only [run_resolver_dispatch, if_pos h0, store, Int.toNat_ofNat, BUF_SIZE, if_pos hlt]
  obtain ⟨ho, htr, hb⟩ := run_resolver_one_dispatch hash port env st hexit _ _ _ hr _ _ hd rfl
  refine ⟨htr, hb, ho, by simp [BUF_SIZE], ?_, ?_, ?_⟩
  · rw [List.length_set, hlen2, BUF_SIZE]
  · rw [take_set_self, List.take_left' hn, htake]
  · exact List.getElem?_set_self (by omega)

/-- C8, at a concrete input: a datagram of 5000 bytes readable on the IPv4
socket is dispatched with length 4095 and the call returns 0. -/
theorem run_resolver_receive_truncates_witness :
    floodEnv.exiting = false ∧ 0 < floodEnv.select_rc ∧ idleState.s ∈ floodEnv.readfds ∧
    floodEnv.recv = some longDatagram ∧ longDatagram.length = 5000 ∧
    idleState.buf.length = BUF_SIZE ∧
    (run_resolver [] 6881 floodEnv idleState).outcome = Outcome.returned 0 ∧
    dispatches (run_resolver [] 6881 floodEnv idleState).trace =
      [Action.dht_periodic
        (some ((longDatagram.take 4095 ++
          idleState.buf.drop (min longDatagram.length 4095)).set
            (min longDatagram.length 4095) 0))
        ((min longDatagram.length 4095 : Nat) : Int)] ∧
    min longDatagram.length 4095 = 4095 :=
  have hL : longDatagram.length = 5000 := by
    simp only [longDatagram, List.length_replicate]
  have hB : idleState.buf.length = BUF_SIZE := by
    simp only [idleState, List.length_replicate, BUF_SIZE]
  have h := run_resolver_receive_truncates [] 6881 floodEnv idleState longDatagram
    (by decide) (by decide) (Or.inl ⟨by decide, by decide⟩) rfl
    (by rw [hL]; decide) hB
  ⟨by decide, by decide, by decide, rfl, hL, hB, h.2.2.1, h.1, by rw [hL]; decide⟩

/-! ## The claims on `callback` -/

/-- C2: for every values event whose payload is a sequence of `n` 6-byte
records (of a size that fits in an `int`), `callback` writes the count line
and then exactly `n` lines, in arrival order, the `i`-th being `a.b.c.d:p`
with `a, b, c, d` the decimal values of bytes 0..3 of the `i`-th record and
`p` the decimal value of bytes 4..5 read as a big-endian 16-bit unsigned
integer. -/
theorem callback_ipv4_lines (SD V : Int) (rs : List Peer4) (hV : V ≠ SD)
    (hsz : 6 * rs.length < 2147483648) :
    callback SD V V (payload4 rs) =
      ("Received " ++ toString (rs.length : Int) ++ " values.") :: rs.map Peer4.line := by
  have hlen := payload4_length rs
  have hdiv : (payload4 rs).length / 6 = rs.length := by omega
  rw [callback_values SD V (payload4 rs) hV (by omega), chunk6_payload4, hdiv]

/-- C2, at the input of the specification: the 12 bytes
`C0 00 02 01 1A E1 C0 00 02 02 1A E2` give the lines `192.0.2.1:6881` and
`192.0.2.2:6882`, in that order, after the count line. -/
theorem callback_ipv4_lines_witness :
    payload4 twoPeers =
      [0xC0, 0x00, 0x02, 0x01, 0x1A, 0xE1, 0xC0, 0x00, 0x02, 0x02, 0x1A, 0xE2] ∧
    6 * twoPeers.length < 2147483648 ∧
    callback 3 1 1
        [0xC0, 0x00, 0x02, 0x01, 0x1A, 0xE1, 0xC0, 0x00, 0x02, 0x02, 0x1A, 0xE2] =
      ["Received 2 values.", "192.0.2.1:6881", "192.0.2.2:6882"] :=
  ⟨by decide, by decide,
    (callback_ipv4_lines 3 1 twoPeers (by decide) (by decide)).trans (by decide)⟩

/-- C3 (as stated, refuted): on a payload of one 18-byte IPv6 record,
`callback` writes three address lines when the event is the values event
(code 1 here), one per 6 bytes, and nothing at all under another event code
(2 here): never one line for the one peer. -/
theorem callback_ipv6_record_not_one_line :
    peer6Record.length = 18 ∧
    callback 3 1 1 peer6Record =
      ["Received 3 values.", "32.1.13.184:0", "0.0.0.0:0", "0.0.0.1:6881"] ∧
    callback 3 1 2 peer6Record = [] := by
  decide

/-- C3 (amended): the record size of `callback` is 6 bytes whatever the
family.  For every payload made of `n` 18-byte records (of a size that fits
in an `int`) and every event code other than the search-done code: under the
values code `callback` writes the count line for `3 * n` and then `3 * n`
lines, one per 6-byte group of the payload in the IPv4 format; under any
other code it writes nothing. -/
theorem callback_stride_six (SD V ev : Int) (recs : List (List Byte))
    (h18 : ∀ r ∈ recs, r.length = 18) (hsz : 18 * recs.length < 2147483648)
    (hSD : ev ≠ SD) :
    callback SD V ev (concatRecords recs) =
      (if ev = V then
        ("Received " ++ toString ((3 * recs.length : Nat) : Int) ++ " values.") ::
          (chunk6 (concatRecords recs)).map Peer4.line
      else []) ∧
    (chunk6 (concatRecords recs)).length = 3 * recs.length := by
  have hlen := concatRecords_length 18 recs h18
  have hdiv : (concatRecords recs).length / 6 = 3 * recs.length := by omega
  refine ⟨?_, by rw [chunk6_length, hdiv]⟩
  by_cases hev : ev = V
  · subst hev
    rw [if_pos rfl, callback_values SD ev (concatRecords recs) hSD (by omega), hdiv]
  · simp [callback, hSD, hev]

/-- C3 (amended), at a concrete input: one 18-byte record under the values
code gives three lines. -/
theorem callback_stride_six_witness :
    (∀ r ∈ [peer6Record], r.length = 18) ∧
    callback 3 1 1 (concatRecords [peer6Record]) =
      ["Received 3 values.", "32.1.13.184:0", "0.0.0.0:0", "0.0.0.1:6881"] ∧
    (chunk6 (concatRecords [peer6Record])).length = 3 :=
  have h := callback_stride_six 3 1 1 [peer6Record] (by decide) (by decide) (by decide)
  ⟨by decide, h.1.trans (by decide), h.2⟩

/-! ## The claims on `main` -/

/-- C7 (as stated, refuted): the source opens and the read obtains 7 bytes;
the identity step does not exit, control goes on past line 216 with an
identity of which 13 cells were never written. -/
theorem main_identity_short_read_proceeds :
    main_identity 3 (some [1, 2, 3, 4, 5, 6, 7]) =
      Startup.proceeds
        ([some 1, some 2, some 3, some 4, some 5, some 6, some 7] ++ List.replicate 13 none) := by
  decide

/-- C7 (amended): the identity step of startup (lines 205-216) ends in the
fatal exit with status 1 exactly when the randomness source cannot be opened
or the read fails; after every read that does not fail, one of fewer than 20
bytes included, the step does not exit and control goes on to the rest of
startup, the identity holding the bytes obtained, which are the whole
identity when 20 bytes were obtained.  (The later steps of `main` have fatal
exits of their own; this statement is about the identity step only.) -/
theorem main_identity_fatal_iff (open_rc : Int) (rd : Option (List Byte)) :
    ((∃ msg, main_identity open_rc rd = Startup.exited 1 msg) ↔ (open_rc < 0 ∨ rd = none)) ∧
    (∀ bytes, 0 ≤ open_rc → rd = some bytes →
      main_identity open_rc rd =
        Startup.proceeds ((bytes.take 20).map some ++ List.replicate (20 - bytes.length) none)) ∧
    (∀ bytes, 0 ≤ open_rc → rd = some bytes → bytes.length = 20 →
      main_identity open_rc rd = Startup.proceeds (bytes.map some)) := by
  have hgo : ∀ bytes, 0 ≤ open_rc → rd = some bytes →
      main_identity open_rc rd =
        Startup.proceeds ((bytes.take 20).map some ++ List.replicate (20 - bytes.length) none) := by
    intro bytes hopen hrd
    have h1 : ¬ open_rc < 0 := by omega
    have h2 : ¬ (((min 20 bytes.length : Nat) : Int) < 0) := by omega
    have h3 : 20 - min 20 bytes.length = 20 - bytes.length := by omega
    simp only [main_identity, if_neg h1, hrd, posix_read, List.length_take, if_neg h2,
      List.drop_replicate, h3]
  refine ⟨?_, hgo, ?_⟩
  · constructor
    · rintro ⟨msg, hmsg⟩
      by_cases hopen : open_rc < 0
      · exact Or.inl hopen
      · cases rd with
        | none => exact Or.inr rfl
        | some bytes =>
          rw [hgo bytes (by omega) rfl] at hmsg
          exact absurd hmsg (by simp)
    · rintro (hopen | hrd)
      · exact ⟨"open(random)", by simp [main_identity, hopen]⟩
      · by_cases hopen : open_rc < 0
        · exact ⟨"open(random)", by simp [main_identity, hopen]⟩
        · exact ⟨"read(random)", by simp [main_identity, hopen, hrd, posix_read]⟩
  · intro bytes hopen hrd hlen
    rw [hgo bytes hopen hrd, List.take_of_length_le (by omega), hlen]
    simp

/-- C9 (the code at the failing input): with 21 (host, port) pairs that each
resolve to one address, the first 20 addresses are stored at the indices
0..19 and the counter reaches 20; the copy of the 21st address is then made
with no test, through `bootstrap_nodes[20]`, an index that is not strictly
below the capacity 20: the store is outside the array. -/
theorem main_bootstrap_overruns_capacity :
    (main_bootstrap resolveOne pairs21 ⟨0, []⟩).1 = ParseEnd.overrun 20 ∧
    ¬ (20 < MAX_BOOTSTRAP_NODES) ∧
    (main_bootstrap resolveOne pairs21 ⟨0, []⟩).2.num_bootstrap_nodes = 20 ∧
    (main_bootstrap resolveOne pairs21 ⟨0, []⟩).2.stores.map Prod.fst = List.range 20 ∧
    (main_bootstrap resolveOne (pairs21.take 40) ⟨0, []⟩).1 = ParseEnd.done := by
  decide

/-! ## The claim on `dht_hash` -/

/-- C10 (the code at the failing input): with `len1 = 2` and
`len2 = len3 = 0` the loops of `dht_hash` read `v2[0]`, `v2[1]`, `v3[0]` and
`v3[1]`, all outside the declared lengths of `v2` and `v3`; with checked
reads on a 2-byte `v1` and empty `v2`, `v3` the construction of the key
fails. -/
theorem dht_hash_reads_past_len2 :
    dht_hash_reads 2 0 0 =
      [(HashArg.v1, 0), (HashArg.v1, 1), (HashArg.v2, 0), (HashArg.v2, 1),
       (HashArg.v3, 0), (HashArg.v3, 1)] ∧
    dht_hash_key [97, 98] [] [] 2 0 0 = none := by
  decide

end DHTC
